import Mathlib

/-!
The connection-lifecycle core of pgcenter (`internal/postgres/postgres.go`).

A shallow embedding of `NewConfig`, `Connect`, `Reconnect` and `isLocalhost`,
and theorems about them.

Modelling conventions:

* A Go `string` is a Lean `String`; equality, concatenation and prefix tests are
  the ones on the underlying character sequences.
* Everything the program learns from outside (the result of a connection
  attempt, of a password prompt, of enumerating interfaces, of reading an
  environment variable, of the driver's connection-string parser) is an
  explicit argument.
* `Config` holds a *pointer* to the driver's `ConnConfig`; the pointee lives in
  an explicit heap, so that writes through the pointer are visible to every
  holder of the pointer, as in Go.
-/

set_option linter.dupNamespace false

namespace Pgcenter

/-! ## Strings -/

/-- Go `strings.HasPrefix(s, pre)`: `pre` is an initial segment of `s`. -/
def HasPrefix (s pre : String) : Bool :=
  pre.data.isPrefixOf s.data

/-! ## Errors -/

/-- A Go `error` value, as far as this package looks at it: its `Error()` text, and the
`Code` of the `*pgconn.PgError` that `errors.As` finds in its chain, if there is one. -/
structure GoError where
  text : String
  pgCode : Option String
  deriving DecidableEq, Repr

/-! ## Locality detection -/

/-- The loop `for _, a := range addresses { if strings.HasPrefix(a.String(), host) { return true } }`
followed by `return false`; the list holds `a.String()` for each address. -/
def rangeAddresses (host : String) : List String → Bool
  | [] => false
  | a :: rest => if HasPrefix a host then true else rangeAddresses host rest

/-- Source function `isLocalhost` (postgres.go:142). `addrs` is what `net.InterfaceAddrs()`
returns when it is called: an error, or the addresses (as their `String()` texts). -/
def isLocalhost (addrs : Except GoError (List String)) (host : String) : Bool :=
  if host = "" then
    false
  else if HasPrefix host "/" then
    true
  else if host = "localhost" ∨ host = "127.0.0.1" ∨ host = "::1" then
    true
  else
    match addrs with
    | .error _ => false
    | .ok addresses => rangeAddresses host addresses

/-- The decision of the specification (section 4.4), rule by rule, in the spec's words:
empty host is not local; a host beginning with a path separator is local; a well-known
loopback name or address is local; otherwise the host is local exactly when enumeration
succeeds and some address text has the host as a prefix. -/
def IsLocalSpec (addrs : Except GoError (List String)) (host : String) : Bool :=
  if host = "" then false
  else if host.data.head? = some '/' then true
  else if host ∈ ["localhost", "127.0.0.1", "::1"] then true
  else match addrs with
    | .error _ => false
    | .ok addresses => addresses.any (fun a => host.data.isPrefixOf a.data)

/-! ## Building the connection descriptor -/

/-- Go `unicode.IsSpace`: the Latin-1 cases `'\t' '\n' '\v' '\f' '\r' ' '`, U+0085, U+00A0,
and beyond Latin-1 the code points of the `White_Space` table. -/
def isSpace (c : Char) : Bool :=
  let r := c.toNat
  if r ≤ 0xFF then
    r = 0x09 ∨ r = 0x0A ∨ r = 0x0B ∨ r = 0x0C ∨ r = 0x0D ∨ r = 0x20 ∨ r = 0x85 ∨ r = 0xA0
  else
    r = 0x1680 ∨ (0x2000 ≤ r ∧ r ≤ 0x200A) ∨ r = 0x2028 ∨ r = 0x2029 ∨ r = 0x202F
      ∨ r = 0x205F ∨ r = 0x3000

/-- Go `strings.TrimSpace`: the string without its leading and trailing white space. -/
def TrimSpace (s : String) : String :=
  ⟨((s.data.dropWhile isSpace).reverse.dropWhile isSpace).reverse⟩

/-- Go `strconv.Itoa`: the decimal text of an integer, with a leading `-` when negative. -/
def Itoa (i : Int) : String :=
  if i < 0 then "-" ++ (Nat.toDigits 10 i.natAbs).asString
  else (Nat.toDigits 10 i.toNat).asString

/-- The connection string that `NewConfig` assembles and hands to the parser
(postgres.go:30-44): the four conditional appends, then `strings.TrimSpace`. -/
def connString (host : String) (port : Int) (user dbname : String) : String :=
  let connStr := ""
  let connStr := if host ≠ "" then "host=" ++ host else connStr
  let connStr := if port > 0 then connStr ++ " port=" ++ Itoa port else connStr
  let connStr := if user ≠ "" then connStr ++ " user=" ++ user else connStr
  let connStr := if dbname ≠ "" then connStr ++ " dbname=" ++ dbname else connStr
  TrimSpace connStr

/-- The fields of the driver's `pgx.ConnConfig` that this package reads or writes.
`RuntimeParams` is the Go map `map[string]string`: a key is absent when it maps to `none`. -/
structure ConnConfig where
  Host : String
  Port : Nat
  Database : String
  User : String
  Password : String
  PreferSimpleProtocol : Bool
  RuntimeParams : String → Option String

/-- The process environment: a variable is unset (`none`) or set to a value. -/
abbrev Environ := String → Option String

/-- Go `os.Getenv`: the value of the variable, and the empty string when it is unset. -/
def Getenv (env : Environ) (key : String) : String :=
  (env key).getD ""

/-- The driver's `pgx.ParseConfig`, which is not part of this repository: it reads the
connection string and the environment and returns a descriptor or an error. -/
abbrev Parser := Environ → String → Except GoError ConnConfig

/-- Source function `NewConfig` (postgres.go:29). The result is the `ConnConfig` that the
returned `Config` points to. -/
def NewConfig (parse : Parser) (env : Environ) (host : String) (port : Int)
    (user dbname : String) : Except GoError ConnConfig :=
  let connStr := connString host port user dbname
  match parse env connStr with
  | .error err => .error err
  | .ok pgConfig =>
    let pgConfig := { pgConfig with PreferSimpleProtocol := true }
    let options := Getenv env "PGOPTIONS"
    let pgConfig :=
      if options ≠ "" then
        { pgConfig with RuntimeParams := Function.update pgConfig.RuntimeParams "options" (some options) }
      else pgConfig
    .ok pgConfig

/-! ## Connecting -/

/-- An address of a `pgx.ConnConfig` in memory. -/
abbrev Ptr := Nat

/-- The memory holding the `pgx.ConnConfig` values that `Config` structs point to. -/
abbrev Heap := Ptr → ConnConfig

/-- The identity of a live `*pgx.Conn`. -/
abbrev ConnHandle := Nat

/-- Source type `Config` (postgres.go:17): a struct holding a pointer to the driver's config. -/
structure Config where
  Config : Ptr
  deriving DecidableEq, Repr

/-- Source type `DB` (postgres.go:22). -/
structure DB where
  Config : Config
  Conn : ConnHandle
  Local : Bool
  deriving DecidableEq, Repr

/-- What `Connect` does to the outside world, each call recorded with what it was given and
what it answered. -/
inductive Event where
  /-- A call of `pgx.ConnectConfig(ctx, config.Config)`, with the pointee at the time of the
  call and the answer. -/
  | connectConfig (cfg : ConnConfig) (res : Except GoError ConnHandle)
  /-- A call of `fmt.Printf`, with the text written. -/
  | printf (out : String)
  /-- A call of `terminal.ReadPassword(0)`, with the answer. -/
  | readPassword (res : Except GoError String)
  /-- A call of `fmt.Println()`. -/
  | println

/-- The mutable state `Connect` runs in: the heap, and the calls made so far. -/
structure State where
  heap : Heap
  trace : List Event

/-- Go `fmt.Errorf("failed connection establishing: %s", err)`: a new error whose text is the
context followed by the text of `err`; the verb `%s` does not wrap, so no `PgError` is
reachable from it. -/
def Errorf (err : GoError) : GoError :=
  { text := "failed connection establishing: " ++ err.text, pgCode := none }

/-- Source function `Connect` (postgres.go:66), one loop iteration per connection attempt.
`attempts` and `prompts` are the answers that `pgx.ConnectConfig` and `terminal.ReadPassword`
give, in order; `addrs` is the answer of `net.InterfaceAddrs`. The result is `none` when the
loop asks for an answer beyond the given ones. -/
def Connect (addrs : Except GoError (List String)) (config : Config) :
    List (Except GoError ConnHandle) → List (Except GoError String) → State →
      Option (Except GoError DB × State)
  | [], _, _ => none
  | res :: attempts, prompts, st =>
    let st : State := { st with trace := st.trace ++ [.connectConfig (st.heap config.Config) res] }
    match res with
    | .error err =>
      match err.pgCode with
      | some code =>
        if code = "28P01" then
          let st : State :=
            { st with trace := st.trace ++
                [.printf ("Password for user " ++ (st.heap config.Config).User ++ ": ")] }
          match prompts with
          | [] => none
          | .error err :: _ =>
            some (.error err, { st with trace := st.trace ++ [.readPassword (.error err)] })
          | .ok bytePassword :: prompts =>
            let st : State :=
              { heap := Function.update st.heap config.Config
                  { st.heap config.Config with Password := bytePassword }
                trace := st.trace ++ [.readPassword (.ok bytePassword), .println] }
            Connect addrs config attempts prompts st
        else
          some (.error (Errorf err), st)
      | none => some (.error err, st)
    | .ok conn =>
      some (.ok { Config := config, Conn := conn,
                  Local := isLocalhost addrs (st.heap config.Config).Host }, st)

/-- Source function `Reconnect` (postgres.go:103). `db` is the `DB` that the argument points
to; the result holds the returned error (`none` for `nil`), that `DB` after the call, and the
state after the call. -/
def Reconnect (addrs : Except GoError (List String)) (db : DB)
    (attempts : List (Except GoError ConnHandle)) (prompts : List (Except GoError String))
    (st : State) : Option (Option GoError × DB × State) :=
  match Connect addrs db.Config attempts prompts st with
  | none => none
  | some (.error err, st) => some (some err, db, st)
  | some (.ok newdb, st) => some (none, newdb, st)

/-! ## Vocabulary of the statements -/

/-- The `<ip>` part of an interface address text `<ip>/<prefix-length>`: what stands before
the first `/`. -/
def ipPart (a : String) : String :=
  ⟨a.data.takeWhile (fun c => c != '/')⟩

/-- The secrets that the password prompts recorded in a trace returned, in order. -/
def secretsRead : List Event → List String
  | [] => []
  | .readPassword (.ok secret) :: rest => secret :: secretsRead rest
  | _ :: rest => secretsRead rest

/-- The descriptor after each of the secrets, in order, was stored into its password field. -/
def withSecrets (c : ConnConfig) (secrets : List String) : ConnConfig :=
  secrets.foldl (fun c secret => { c with Password := secret }) c

/-- The calls of a run of authentication rounds that starts with descriptor `c`: in each
round the attempt fails with the next error, the prompt is written, and the next secret is read
and stored. -/
def authTrace (c : ConnConfig) : List GoError → List String → List Event
  | err :: errs, secret :: secrets =>
    [ .connectConfig c (.error err),
      .printf ("Password for user " ++ c.User ++ ": "),
      .readPassword (.ok secret),
      .println ] ++ authTrace { c with Password := secret } errs secrets
  | _, _ => []

/-- The state after a run of authentication rounds on the descriptor that `config` points to. -/
def afterAuth (config : Config) (errs : List GoError) (secrets : List String) (st : State) :
    State :=
  { heap := Function.update st.heap config.Config (withSecrets (st.heap config.Config) secrets)
    trace := st.trace ++ authTrace (st.heap config.Config) errs secrets }

/-- The parts of the connection string, in order: each of the four settings that is given,
as `key=value` with the value verbatim. -/
def connParts (host : String) (port : Int) (user dbname : String) : List String :=
  (if host ≠ "" then ["host=" ++ host] else [])
    ++ (if port > 0 then ["port=" ++ Itoa port] else [])
    ++ (if user ≠ "" then ["user=" ++ user] else [])
    ++ (if dbname ≠ "" then ["dbname=" ++ dbname] else [])

/-- The string neither begins nor ends with white space. -/
def NoEdgeSpace (s : String) : Prop :=
  (∀ c, s.data.head? = some c → isSpace c = false)
    ∧ (∀ c, s.data.getLast? = some c → isSpace c = false)

/-- The string `acc` is the parts joined by single spaces, possibly with one more space in
front; the joined string has no white space at its ends. -/
def Assembled (acc : String) (parts : List String) : Prop :=
  (parts = [] ∧ acc = "")
    ∨ (parts ≠ []
        ∧ (acc = " ".intercalate parts ∨ acc = " " ++ " ".intercalate parts)
        ∧ (" ".intercalate parts).data ≠ []
        ∧ NoEdgeSpace (" ".intercalate parts))

/-! ## Concrete inputs used in the examples -/

/-- A descriptor for a remote server, with no password stored yet. -/
def remoteConfig : ConnConfig :=
  { Host := "db.example.org", Port := 5432, Database := "postgres", User := "postgres",
    Password := "", PreferSimpleProtocol := true, RuntimeParams := fun _ => none }

/-- A state whose heap holds `remoteConfig` at every address, before any call. -/
def remoteState : State :=
  { heap := fun _ => remoteConfig, trace := [] }

/-- A session on the descriptor at address `0`, with handle `1`, classified as remote. -/
def remoteDB : DB :=
  { Config := { Config := 0 }, Conn := 1, Local := false }

/-- The server's answer to a wrong or missing password. -/
def authFailure : GoError :=
  { text := "FATAL: password authentication failed for user \"postgres\" (SQLSTATE 28P01)",
    pgCode := some "28P01" }

/-- The server's answer when the database does not exist. -/
def noSuchDatabase : GoError :=
  { text := "FATAL: database \"postgres\" does not exist (SQLSTATE 3D000)",
    pgCode := some "3D000" }

/-- A network failure: no server error is involved. -/
def connectionRefused : GoError :=
  { text := "dial tcp 10.0.0.5:5432: connect: connection refused", pgCode := none }

/-- A machine with one interface. -/
def oneInterface : Except GoError (List String) :=
  .ok ["192.168.1.10/24"]

/-- A stand-in for the driver's parser that answers as the driver does on the connection
strings of the examples: a port outside 1..65535 is rejected, a setting `options=...` in the
string lands in the runtime parameters, and the protocol mode is the driver's default. -/
def driverParser : Parser := fun _ connStr =>
  if connStr = "port=70000" then
    .error { text := "cannot parse `port=70000`: invalid port (outside range)", pgCode := none }
  else
    .ok { Host := "localhost", Port := 5432, Database := "", User := "postgres", Password := "",
          PreferSimpleProtocol := false,
          RuntimeParams := fun key =>
            if key = "options" ∧ connStr = "dbname=postgres options=-csearch_path=public" then
              some "-csearch_path=public"
            else none }

/-- An environment with no variable set. -/
def emptyEnviron : Environ := fun _ => none

/-- An environment in which `PGOPTIONS` is set to `value` and nothing else is set. -/
def environWithOptions (value : String) : Environ :=
  fun key => if key = "PGOPTIONS" then some value else none

/-! ## Locality detection: theorems -/

theorem hasPrefix_slash (host : String) :
    HasPrefix host "/" = true ↔ host.data.head? = some '/' := by
  unfold HasPrefix
  have h : "/".data = ['/'] := rfl
  rw [h]
  cases host.data with
  | nil => simp [List.isPrefixOf]
  | cons c cs =>
    simp [List.isPrefixOf]
    exact eq_comm

theorem rangeAddresses_eq_any (host : String) (addresses : List String) :
    rangeAddresses host addresses = addresses.any (fun a => host.data.isPrefixOf a.data) := by
  induction addresses with
  | nil => rfl
  | cons a rest ih =>
    simp only [rangeAddresses, List.any_cons, ih, HasPrefix]
    cases host.data.isPrefixOf a.data <;> simp

/-- C1: `isLocalhost` is the four-rule decision of the specification, whatever the host
and whatever the enumeration of the interface addresses returns; in particular the empty
host is remote, and `localhost`, `127.0.0.1`, `::1` and `/var/run/db.sock` are local. -/
theorem isLocalhost_eq_IsLocalSpec (addrs : Except GoError (List String)) (host : String) :
    isLocalhost addrs host = IsLocalSpec addrs host
      ∧ isLocalhost addrs "" = false
      ∧ isLocalhost addrs "localhost" = true
      ∧ isLocalhost addrs "127.0.0.1" = true
      ∧ isLocalhost addrs "::1" = true
      ∧ isLocalhost addrs "/var/run/db.sock" = true := by
  refine ⟨?_, rfl, rfl, rfl, rfl, rfl⟩
  unfold isLocalhost IsLocalSpec
  by_cases h1 : host = ""
  · simp [h1]
  · by_cases h2 : HasPrefix host "/" = true
    · have h2' := (hasPrefix_slash host).1 h2
      simp [h1, h2, h2']
    · have h2' : ¬ host.data.head? = some '/' := fun h => h2 ((hasPrefix_slash host).2 h)
      by_cases h3 : host = "localhost" ∨ host = "127.0.0.1" ∨ host = "::1"
      · have h3' : host ∈ ["localhost", "127.0.0.1", "::1"] := by simpa using h3
        simp [h1, h2, h2', h3', h3]
      · have h3' : ¬ host ∈ ["localhost", "127.0.0.1", "::1"] := by simpa using h3
        simp only [h1, h2, h2', h3, h3', if_true, if_false]
        cases addrs with
        | error e => rfl
        | ok addresses => exact rangeAddresses_eq_any host addresses

/-- C2: on a machine whose only interface address is `192.168.1.10/24`, `isLocalhost`
classifies the hosts `1` and `192.168.1.1` as local, although neither is a socket path, a
loopback name, or the address of an interface of the machine. -/
theorem isLocalhost_prefix_overclaims :
    (isLocalhost oneInterface "192.168.1.1" = true
        ∧ ¬ (HasPrefix "192.168.1.1" "/" = true
              ∨ "192.168.1.1" ∈ ["localhost", "127.0.0.1", "::1"]
              ∨ ∃ a ∈ ["192.168.1.10/24"], "192.168.1.1" = ipPart a))
      ∧ (isLocalhost oneInterface "1" = true
        ∧ ¬ (HasPrefix "1" "/" = true
              ∨ "1" ∈ ["localhost", "127.0.0.1", "::1"]
              ∨ ∃ a ∈ ["192.168.1.10/24"], "1" = ipPart a)) := by
  decide

/-! ## Connecting: the shape of a run -/

theorem withSecrets_eq (c : ConnConfig) (secrets : List String) :
    withSecrets c secrets = { c with Password := secrets.getLast?.getD c.Password } := by
  induction secrets generalizing c with
  | nil => rfl
  | cons s rest ih =>
    have h : withSecrets c (s :: rest) = withSecrets { c with Password := s } rest := rfl
    rw [h, ih]
    cases rest with
    | nil => rfl
    | cons t rest =>
      simp [List.getLast?_cons_cons, List.getLast?_eq_getLast _ (List.cons_ne_nil t rest)]

theorem Connect_auth_round (addrs : Except GoError (List String)) (config : Config)
    (err : GoError) (secret : String) (herr : err.pgCode = some "28P01")
    (attempts : List (Except GoError ConnHandle)) (prompts : List (Except GoError String))
    (st : State) :
    Connect addrs config (.error err :: attempts) (.ok secret :: prompts) st
      = Connect addrs config attempts prompts (afterAuth config [err] [secret] st) := by
  simp [Connect, herr, afterAuth, authTrace, withSecrets]

theorem afterAuth_cons (config : Config) (err : GoError) (errs : List GoError)
    (secret : String) (secrets : List String) (st : State) :
    afterAuth config errs secrets (afterAuth config [err] [secret] st)
      = afterAuth config (err :: errs) (secret :: secrets) st := by
  simp [afterAuth, authTrace, withSecrets]

theorem afterAuth_nil (config : Config) (st : State) : afterAuth config [] [] st = st := by
  cases st
  simp [afterAuth, authTrace, withSecrets]

theorem Connect_auth_rounds (addrs : Except GoError (List String)) (config : Config)
    (errs : List GoError) (secrets : List String) (hlen : errs.length = secrets.length)
    (hauth : ∀ err ∈ errs, err.pgCode = some "28P01")
    (attempts : List (Except GoError ConnHandle)) (prompts : List (Except GoError String))
    (st : State) :
    Connect addrs config (errs.map .error ++ attempts) (secrets.map .ok ++ prompts) st
      = Connect addrs config attempts prompts (afterAuth config errs secrets st) := by
  induction errs generalizing secrets st with
  | nil =>
    cases secrets with
    | nil => simp [afterAuth_nil]
    | cons s rest => simp at hlen
  | cons e errs ih =>
    cases secrets with
    | nil => simp at hlen
    | cons s rest =>
      simp only [List.map_cons, List.cons_append]
      rw [Connect_auth_round addrs config e s (hauth e (List.mem_cons_self _ _)),
        ih rest (by simpa using hlen) (fun x hx => hauth x (List.mem_cons_of_mem _ hx)),
        afterAuth_cons]

theorem secretsRead_append (xs ys : List Event) :
    secretsRead (xs ++ ys) = secretsRead xs ++ secretsRead ys := by
  induction xs with
  | nil => rfl
  | cons x xs ih =>
    cases x with
    | readPassword res =>
      cases res with
      | ok s => simp [secretsRead, ih]
      | error e => simp [secretsRead, ih]
    | connectConfig c res => simp [secretsRead, ih]
    | printf out => simp [secretsRead, ih]
    | println => simp [secretsRead, ih]

theorem Connect_run (addrs : Except GoError (List String)) (config : Config)
    (attempts : List (Except GoError ConnHandle)) :
    ∀ (prompts : List (Except GoError String)) (st : State) (r : Except GoError DB)
      (st' : State), Connect addrs config attempts prompts st = some (r, st') →
      ∃ delta, st'.trace = st.trace ++ delta
        ∧ st'.heap = Function.update st.heap config.Config
            (withSecrets (st.heap config.Config) (secretsRead delta))
        ∧ ∀ db, r = .ok db →
            db.Config = config
              ∧ db.Local = isLocalhost addrs (st'.heap config.Config).Host
              ∧ ∃ pre, delta = pre ++ [.connectConfig (st'.heap config.Config) (.ok db.Conn)] := by
  induction attempts with
  | nil => intro prompts st r st' h; simp [Connect] at h
  | cons res attempts ih =>
    intro prompts st r st' h
    cases res with
    | ok conn =>
      simp only [Connect, Option.some.injEq, Prod.mk.injEq] at h
      obtain ⟨hr, hst⟩ := h
      subst hr hst
      refine ⟨[.connectConfig (st.heap config.Config) (.ok conn)], rfl, ?_, ?_⟩
      · simp [secretsRead, withSecrets]
      · intro db hdb
        cases hdb
        exact ⟨rfl, rfl, [], rfl⟩
    | error err =>
      cases hcode : err.pgCode with
      | none =>
        simp only [Connect, hcode, Option.some.injEq, Prod.mk.injEq] at h
        obtain ⟨hr, hst⟩ := h
        subst hr hst
        refine ⟨[.connectConfig (st.heap config.Config) (.error err)], rfl, ?_, ?_⟩
        · simp [secretsRead, withSecrets]
        · intro db hdb; cases hdb
      | some code =>
        by_cases hc : code = "28P01"
        · subst hc
          cases prompts with
          | nil => simp [Connect, hcode] at h
          | cons p prompts =>
            cases p with
            | error e =>
              simp only [Connect, hcode, if_true, Option.some.injEq, Prod.mk.injEq] at h
              obtain ⟨hr, hst⟩ := h
              subst hr hst
              refine ⟨[.connectConfig (st.heap config.Config) (.error err),
                .printf ("Password for user " ++ (st.heap config.Config).User ++ ": "),
                .readPassword (.error e)], by simp, ?_, ?_⟩
              · simp [secretsRead, withSecrets]
              · intro db hdb; cases hdb
            | ok secret =>
              rw [Connect_auth_round addrs config err secret hcode] at h
              obtain ⟨delta, htr, hheap, hok⟩ := ih prompts _ r st' h
              refine ⟨authTrace (st.heap config.Config) [err] [secret] ++ delta, ?_, ?_, ?_⟩
              · rw [htr]; simp [afterAuth]
              · rw [hheap]
                simp [afterAuth, authTrace, secretsRead_append, secretsRead, withSecrets]
              · intro db hdb
                obtain ⟨h1, h2, pre, h3⟩ := hok db hdb
                exact ⟨h1, h2, authTrace (st.heap config.Config) [err] [secret] ++ pre, by
                  rw [h3]; simp⟩
        · simp only [Connect, hcode, hc, if_false, Option.some.injEq, Prod.mk.injEq] at h
          obtain ⟨hr, hst⟩ := h
          subst hr hst
          refine ⟨[.connectConfig (st.heap config.Config) (.error err)], rfl, ?_, ?_⟩
          · simp [secretsRead, withSecrets]
          · intro db hdb; cases hdb

/-! ## Connecting: theorems -/

/-- C5: after `n` attempts that fail with the authentication code `28P01`, each answered by
a secret, `Connect` goes on with an attempt number `n + 1` on the descriptor whose password is
the last secret read and whose other fields are unchanged, having prompted once per failed
attempt; if that attempt succeeds, `Connect` returns a session with its handle and prompts no
more; if it fails otherwise, `Connect` returns an error and prompts no more; if it fails with
`28P01` and the prompt fails to read, `Connect` returns the input error and attempts no more. -/
theorem Connect_retries_on_auth_failure (addrs : Except GoError (List String))
    (config : Config) (errs : List GoError) (secrets : List String)
    (hlen : errs.length = secrets.length)
    (hauth : ∀ err ∈ errs, err.pgCode = some "28P01")
    (attempts : List (Except GoError ConnHandle)) (prompts : List (Except GoError String))
    (st : State) :
    Connect addrs config (errs.map .error ++ attempts) (secrets.map .ok ++ prompts) st
        = Connect addrs config attempts prompts (afterAuth config errs secrets st)
      ∧ (afterAuth config errs secrets st).heap config.Config
          = withSecrets (st.heap config.Config) secrets
      ∧ withSecrets (st.heap config.Config) secrets
          = { st.heap config.Config with
                Password := secrets.getLast?.getD (st.heap config.Config).Password }
      ∧ (∀ conn,
          Connect addrs config (errs.map .error ++ .ok conn :: attempts)
              (secrets.map .ok ++ prompts) st
            = some (.ok { Config := config, Conn := conn,
                          Local := isLocalhost addrs (st.heap config.Config).Host },
                { heap := (afterAuth config errs secrets st).heap
                  trace := (afterAuth config errs secrets st).trace ++
                    [.connectConfig (withSecrets (st.heap config.Config) secrets) (.ok conn)] }))
      ∧ (∀ err, err.pgCode ≠ some "28P01" →
          ∃ e, Connect addrs config (errs.map .error ++ .error err :: attempts)
              (secrets.map .ok ++ prompts) st
            = some (.error e,
                { heap := (afterAuth config errs secrets st).heap
                  trace := (afterAuth config errs secrets st).trace ++
                    [.connectConfig (withSecrets (st.heap config.Config) secrets) (.error err)] }))
      ∧ (∀ err input, err.pgCode = some "28P01" →
          Connect addrs config (errs.map .error ++ .error err :: attempts)
              (secrets.map .ok ++ .error input :: prompts) st
            = some (.error input,
                { heap := (afterAuth config errs secrets st).heap
                  trace := (afterAuth config errs secrets st).trace ++
                    [.connectConfig (withSecrets (st.heap config.Config) secrets) (.error err),
                     .printf ("Password for user " ++ (st.heap config.Config).User ++ ": "),
                     .readPassword (.error input)] })) := by
  have hheap : (afterAuth config errs secrets st).heap config.Config
      = withSecrets (st.heap config.Config) secrets := by
    simp [afterAuth]
  have huser : (withSecrets (st.heap config.Config) secrets).User = (st.heap config.Config).User := by
    rw [withSecrets_eq]
  have hhost : (withSecrets (st.heap config.Config) secrets).Host = (st.heap config.Config).Host := by
    rw [withSecrets_eq]
  refine ⟨Connect_auth_rounds addrs config errs secrets hlen hauth attempts prompts st, hheap,
    withSecrets_eq _ _, ?_, ?_, ?_⟩
  · intro conn
    rw [Connect_auth_rounds addrs config errs secrets hlen hauth]
    simp [Connect, hheap, hhost]
  · intro err herr
    rw [Connect_auth_rounds addrs config errs secrets hlen hauth]
    cases hcode : err.pgCode with
    | none => exact ⟨err, by simp [Connect, hcode, hheap]⟩
    | some code =>
      have hc : code ≠ "28P01" := fun h => herr (by rw [hcode, h])
      exact ⟨Errorf err, by simp [Connect, hcode, hc, hheap]⟩
  · intro err input herr
    rw [Connect_auth_rounds addrs config errs secrets hlen hauth]
    simp [Connect, herr, hheap, huser]

/-- C5 at a concrete run: one authentication failure answered with `s3cret`, then a
successful attempt with handle `7`. -/
theorem Connect_retries_on_auth_failure_witness :
    [authFailure].length = ["s3cret"].length
      ∧ (∀ err ∈ [authFailure], err.pgCode = some "28P01")
      ∧ Connect oneInterface remoteDB.Config [.error authFailure, .ok 7] [.ok "s3cret"]
          remoteState
        = some (.ok { Config := remoteDB.Config, Conn := 7, Local := false },
            { heap := Function.update remoteState.heap 0 { remoteConfig with Password := "s3cret" }
              trace :=
                [ .connectConfig remoteConfig (.error authFailure),
                  .printf "Password for user postgres: ",
                  .readPassword (.ok "s3cret"),
                  .println,
                  .connectConfig { remoteConfig with Password := "s3cret" } (.ok 7) ] }) :=
  ⟨rfl, by decide,
    (Connect_retries_on_auth_failure oneInterface remoteDB.Config [authFailure] ["s3cret"] rfl
      (by decide) [] [] remoteState).2.2.2.1 7⟩

/-- C4, as stated, fails: an attempt that fails with a network error makes `Connect` return
that very error, with no context added to it. -/
theorem Connect_network_error_unwrapped :
    connectionRefused.pgCode ≠ some "28P01"
      ∧ (∃ st', Connect oneInterface remoteDB.Config [.error connectionRefused] [] remoteState
            = some (.error connectionRefused, st'))
      ∧ connectionRefused ≠ Errorf connectionRefused
      ∧ HasPrefix connectionRefused.text "failed connection establishing: " = false :=
  ⟨by decide, ⟨_, rfl⟩, by decide, by decide⟩

/-- C4, amended: an attempt that fails with anything other than the authentication code
`28P01` (the first attempt, or one after any number of authentication rounds) ends `Connect`
with no session, no prompt and no further attempt; the error returned is, for a server error,
a new error whose text is `failed connection establishing: ` followed by the text of the
cause, and for any other error the cause itself, unchanged. -/
theorem Connect_other_failure (addrs : Except GoError (List String)) (config : Config)
    (errs : List GoError) (secrets : List String) (hlen : errs.length = secrets.length)
    (hauth : ∀ e ∈ errs, e.pgCode = some "28P01")
    (err : GoError) (herr : err.pgCode ≠ some "28P01")
    (attempts : List (Except GoError ConnHandle)) (prompts : List (Except GoError String))
    (st : State) :
    Connect addrs config (errs.map .error ++ .error err :: attempts)
        (secrets.map .ok ++ prompts) st
      = some (.error (if err.pgCode.isSome then Errorf err else err),
          { heap := (afterAuth config errs secrets st).heap
            trace := (afterAuth config errs secrets st).trace ++
              [.connectConfig (withSecrets (st.heap config.Config) secrets) (.error err)] })
      ∧ (Errorf err).text = "failed connection establishing: " ++ err.text := by
  refine ⟨?_, rfl⟩
  have hheap : (afterAuth config errs secrets st).heap config.Config
      = withSecrets (st.heap config.Config) secrets := by
    simp [afterAuth]
  rw [Connect_auth_rounds addrs config errs secrets hlen hauth]
  cases hcode : err.pgCode with
  | none => simp [Connect, hcode, hheap]
  | some code =>
    have hc : code ≠ "28P01" := fun h => herr (by rw [hcode, h])
    simp [Connect, hcode, hc, hheap]

/-- C4, amended, at a concrete run: an authentication failure answered with `s3cret`, then
an attempt answered with the server error `3D000`. -/
theorem Connect_other_failure_witness :
    [authFailure].length = ["s3cret"].length
      ∧ (∀ e ∈ [authFailure], e.pgCode = some "28P01")
      ∧ noSuchDatabase.pgCode ≠ some "28P01"
      ∧ Connect oneInterface remoteDB.Config
          [.error authFailure, .error noSuchDatabase, .ok 7] [.ok "s3cret", .ok "again"]
          remoteState
        = some (.error
            { text := "failed connection establishing: FATAL: database \"postgres\" does not exist (SQLSTATE 3D000)"
              pgCode := none },
            { heap := Function.update remoteState.heap 0 { remoteConfig with Password := "s3cret" }
              trace :=
                [ .connectConfig remoteConfig (.error authFailure),
                  .printf "Password for user postgres: ",
                  .readPassword (.ok "s3cret"),
                  .println,
                  .connectConfig { remoteConfig with Password := "s3cret" }
                    (.error noSuchDatabase) ] }) :=
  ⟨rfl, by decide, by decide,
    (Connect_other_failure oneInterface remoteDB.Config [authFailure] ["s3cret"] rfl (by decide)
      noSuchDatabase (by decide) [.ok 7] [.ok "again"] remoteState).1⟩

/-- C3, as stated, fails: a `Reconnect` whose first attempt fails with `28P01`, is answered
with the secret `s3cret`, and whose second attempt fails with a network error returns that
error, and the password of the session's descriptor is no longer what it was. -/
theorem Reconnect_failure_changes_password :
    ∃ st', Reconnect oneInterface remoteDB [.error authFailure, .error connectionRefused]
          [.ok "s3cret"] remoteState
        = some (some connectionRefused, remoteDB, st')
      ∧ (remoteState.heap remoteDB.Config.Config).Password = ""
      ∧ (st'.heap remoteDB.Config.Config).Password = "s3cret" :=
  ⟨_, rfl, rfl, rfl⟩

/-- C3, amended: when the `Connect` run by `Reconnect` ends in an error, `Reconnect` returns
that error and leaves the session's three fields (descriptor pointer, handle, locality flag)
as they were; every other descriptor in memory is unchanged, and so is every field of the
session's descriptor other than the password, which holds the last secret read during the
run (and is unchanged when none was read). -/
theorem Reconnect_failure_frame (addrs : Except GoError (List String)) (db : DB)
    (attempts : List (Except GoError ConnHandle)) (prompts : List (Except GoError String))
    (st st' : State) (err : GoError)
    (h : Connect addrs db.Config attempts prompts st = some (.error err, st')) :
    Reconnect addrs db attempts prompts st = some (some err, db, st')
      ∧ (∀ q, q ≠ db.Config.Config → st'.heap q = st.heap q)
      ∧ ∃ delta, st'.trace = st.trace ++ delta
          ∧ st'.heap db.Config.Config
            = { st.heap db.Config.Config with
                  Password := (secretsRead delta).getLast?.getD
                    (st.heap db.Config.Config).Password } := by
  obtain ⟨delta, htr, hheap, -⟩ := Connect_run addrs db.Config attempts prompts st _ st' h
  refine ⟨by simp [Reconnect, h], ?_, delta, htr, ?_⟩
  · intro q hq
    rw [hheap, Function.update_noteq hq]
  · rw [hheap, Function.update_same, withSecrets_eq]

/-- C3, amended, at a concrete run: an authentication failure answered with `s3cret`, then
a network error. -/
theorem Reconnect_failure_frame_witness :
    ∃ st', Connect oneInterface remoteDB.Config [.error authFailure, .error connectionRefused]
          [.ok "s3cret"] remoteState = some (.error connectionRefused, st')
      ∧ Reconnect oneInterface remoteDB [.error authFailure, .error connectionRefused]
          [.ok "s3cret"] remoteState = some (some connectionRefused, remoteDB, st')
      ∧ (∀ q, q ≠ remoteDB.Config.Config → st'.heap q = remoteState.heap q)
      ∧ ∃ delta, st'.trace = remoteState.trace ++ delta
          ∧ st'.heap remoteDB.Config.Config
            = { remoteState.heap remoteDB.Config.Config with
                  Password := (secretsRead delta).getLast?.getD
                    (remoteState.heap remoteDB.Config.Config).Password } :=
  ⟨_, rfl, Reconnect_failure_frame oneInterface remoteDB
    [.error authFailure, .error connectionRefused] [.ok "s3cret"] remoteState _
    connectionRefused rfl⟩

/-- C9: a session returned by a successful `Connect` holds the descriptor it was given, the
handle that the last (the successful) attempt returned, and the locality of the host of that
descriptor as that attempt used it; a successful `Reconnect` on an existing session with this
descriptor leaves exactly that session in its place, whatever the old handle and flag were. -/
theorem Connect_session_coherent (addrs : Except GoError (List String)) (config : Config)
    (attempts : List (Except GoError ConnHandle)) (prompts : List (Except GoError String))
    (st st' : State) (db : DB)
    (h : Connect addrs config attempts prompts st = some (.ok db, st')) :
    db.Config = config
      ∧ db.Local = isLocalhost addrs (st'.heap db.Config.Config).Host
      ∧ (∃ pre, st'.trace
          = st.trace ++ pre ++ [.connectConfig (st'.heap db.Config.Config) (.ok db.Conn)])
      ∧ ∀ old : DB, old.Config = config →
          Reconnect addrs old attempts prompts st = some (none, db, st') := by
  obtain ⟨delta, htr, -, hok⟩ := Connect_run addrs config attempts prompts st _ st' h
  obtain ⟨h1, h2, pre, h3⟩ := hok db rfl
  refine ⟨h1, by rw [h1]; exact h2, ⟨pre, ?_⟩, ?_⟩
  · rw [htr, h3, h1, List.append_assoc]
  · intro old hold
    simp [Reconnect, hold, h]

/-- C9 at a concrete run: an authentication failure answered with `s3cret`, then a successful
attempt with handle `7`, on a session whose old handle was `1`. -/
theorem Connect_session_coherent_witness :
    ∃ st', Connect oneInterface remoteDB.Config [.error authFailure, .ok 7] [.ok "s3cret"]
          remoteState
        = some (.ok { Config := remoteDB.Config, Conn := 7, Local := false }, st')
      ∧ (st'.heap 0).Password = "s3cret"
      ∧ Reconnect oneInterface remoteDB [.error authFailure, .ok 7] [.ok "s3cret"] remoteState
        = some (none, { Config := remoteDB.Config, Conn := 7, Local := false }, st') :=
  ⟨_, rfl, rfl,
    (Connect_session_coherent oneInterface remoteDB.Config [.error authFailure, .ok 7]
      [.ok "s3cret"] remoteState _ _ rfl).2.2.2 remoteDB rfl⟩

/-! ## Building the connection descriptor: theorems -/

/-- C6, as stated, fails: for the tuple `("", 70000, "", "")` the assembled string is
`port=70000`, the parser rejects it, and `NewConfig` returns the parser's error and no
descriptor. -/
theorem NewConfig_fails_on_rejected_port :
    connString "" 70000 "" "" = "port=70000"
      ∧ NewConfig driverParser emptyEnviron "" 70000 "" ""
        = .error { text := "cannot parse `port=70000`: invalid port (outside range)",
                   pgCode := none } :=
  ⟨by decide, rfl⟩

/-- C6, amended: `NewConfig` returns a descriptor and no error exactly when the parser
accepts the assembled connection string, and returns the parser's error otherwise; for the
all-empty tuple the assembled string is the empty string. -/
theorem NewConfig_succeeds_iff_parsed (parse : Parser) (env : Environ) (host : String)
    (port : Int) (user dbname : String) :
    ((∃ c, NewConfig parse env host port user dbname = .ok c)
        ↔ ∃ pgConfig, parse env (connString host port user dbname) = .ok pgConfig)
      ∧ (∀ err, parse env (connString host port user dbname) = .error err →
          NewConfig parse env host port user dbname = .error err)
      ∧ connString "" 0 "" "" = "" := by
  refine ⟨?_, ?_, by decide⟩
  · cases hp : parse env (connString host port user dbname) with
    | error err => simp [NewConfig, hp]
    | ok pgConfig => simp [NewConfig, hp]
  · intro err hp
    simp [NewConfig, hp]

/-- C7: every descriptor that `NewConfig` returns has simple-query protocol mode enabled,
whatever the tuple, the environment and the parser's answer. -/
theorem NewConfig_prefers_simple_protocol (parse : Parser) (env : Environ) (host : String)
    (port : Int) (user dbname : String) (c : ConnConfig)
    (h : NewConfig parse env host port user dbname = .ok c) :
    c.PreferSimpleProtocol = true := by
  unfold NewConfig at h
  cases hp : parse env (connString host port user dbname) with
  | error err => simp [hp] at h
  | ok pgConfig =>
    simp only [hp, Except.ok.injEq] at h
    subst h
    by_cases ho : Getenv env "PGOPTIONS" = "" <;> simp [ho]

/-- C7 at a concrete call: the all-empty tuple, with a parser that leaves the protocol mode
at the extended protocol. -/
theorem NewConfig_prefers_simple_protocol_witness :
    ∃ pgConfig c, driverParser emptyEnviron (connString "" 0 "" "") = .ok pgConfig
      ∧ pgConfig.PreferSimpleProtocol = false
      ∧ NewConfig driverParser emptyEnviron "" 0 "" "" = .ok c
      ∧ c.PreferSimpleProtocol = true :=
  ⟨_, _, rfl, rfl, rfl,
    NewConfig_prefers_simple_protocol driverParser emptyEnviron "" 0 "" "" _ rfl⟩

/-- C8, as stated, fails, in both halves: with `PGOPTIONS` set to the empty value the
returned map has no `options` entry (not the entry with the empty value); and with `PGOPTIONS`
unset the returned map has an `options` entry when the connection string itself carried
one. -/
theorem NewConfig_options_mismatch :
    (∃ c, NewConfig driverParser (environWithOptions "") "" 0 "" "" = .ok c
        ∧ environWithOptions "" "PGOPTIONS" = some ""
        ∧ c.RuntimeParams "options" = none)
      ∧ (∃ c, NewConfig driverParser emptyEnviron "" 0 ""
            "postgres options=-csearch_path=public" = .ok c
        ∧ emptyEnviron "PGOPTIONS" = none
        ∧ c.RuntimeParams "options" = some "-csearch_path=public") :=
  ⟨⟨_, rfl, rfl, rfl⟩, ⟨_, rfl, rfl, rfl⟩⟩

/-- C8, amended: the runtime-parameter map of a descriptor that `NewConfig` returns is the
map the parser produced, except that, if `PGOPTIONS` is set to a non-empty value `V`, the key
`options` holds exactly `V`; if `PGOPTIONS` is unset or set to the empty value, the map is the
parser's map unchanged, so the key `options` is absent exactly when the parser produced
none. -/
theorem NewConfig_options (parse : Parser) (env : Environ) (host : String) (port : Int)
    (user dbname : String) (pgConfig c : ConnConfig)
    (hp : parse env (connString host port user dbname) = .ok pgConfig)
    (h : NewConfig parse env host port user dbname = .ok c) :
    (∀ V, env "PGOPTIONS" = some V → V ≠ "" → c.RuntimeParams "options" = some V)
      ∧ (env "PGOPTIONS" = none ∨ env "PGOPTIONS" = some "" →
          c.RuntimeParams = pgConfig.RuntimeParams)
      ∧ (∀ key, key ≠ "options" → c.RuntimeParams key = pgConfig.RuntimeParams key) := by
  simp only [NewConfig, hp, Except.ok.injEq] at h
  subst h
  by_cases ho : Getenv env "PGOPTIONS" = ""
  · refine ⟨?_, ?_, ?_⟩
    · intro V hV hne
      simp [Getenv, hV] at ho
      exact absurd ho hne
    · intro _; simp [ho]
    · intro _ _; simp [ho]
  · refine ⟨?_, ?_, ?_⟩
    · intro V hV _
      simp [Getenv, hV] at ho ⊢
      simp [ho]
    · intro h
      rcases h with h | h <;> simp [Getenv, h] at ho
    · intro key hkey
      simp [ho, Function.update_noteq hkey]

/-- C8, amended, at a concrete call: `PGOPTIONS` is set to `-c statement_timeout=5s`. -/
theorem NewConfig_options_witness :
    ∃ pgConfig c, driverParser (environWithOptions "-c statement_timeout=5s")
          (connString "db.example.org" 5432 "postgres" "postgres") = .ok pgConfig
      ∧ NewConfig driverParser (environWithOptions "-c statement_timeout=5s")
          "db.example.org" 5432 "postgres" "postgres" = .ok c
      ∧ pgConfig.RuntimeParams "options" = none
      ∧ c.RuntimeParams "options" = some "-c statement_timeout=5s" :=
  ⟨_, _, rfl, rfl, rfl,
    (NewConfig_options driverParser (environWithOptions "-c statement_timeout=5s")
      "db.example.org" 5432 "postgres" "postgres" _ _ rfl rfl).1
      "-c statement_timeout=5s" rfl (by decide)⟩

/-! ## The connection string: theorems -/

theorem dropWhile_isSpace_of_head (l : List Char)
    (h : ∀ c, l.head? = some c → isSpace c = false) : l.dropWhile isSpace = l := by
  cases l with
  | nil => rfl
  | cons c t => simp [List.dropWhile, h c rfl]

theorem TrimSpace_of_noEdgeSpace (s : String) (h : NoEdgeSpace s) : TrimSpace s = s := by
  unfold TrimSpace
  rw [dropWhile_isSpace_of_head _ h.1,
    dropWhile_isSpace_of_head s.data.reverse (by simpa [List.head?_reverse] using h.2),
    List.reverse_reverse]

theorem TrimSpace_space_append (s : String) : TrimSpace (" " ++ s) = TrimSpace s := by
  unfold TrimSpace
  have h : (" " ++ s).data = ' ' :: s.data := by rw [String.data_append]; rfl
  have hsp : isSpace ' ' = true := by decide
  rw [h, List.dropWhile_cons, if_pos hsp]

theorem intercalate_go_snoc (sep : String) (parts : List String) (p : String) :
    ∀ acc, String.intercalate.go acc sep (parts ++ [p])
      = String.intercalate.go acc sep parts ++ sep ++ p := by
  induction parts with
  | nil => intro acc; simp [String.intercalate.go]
  | cons a rest ih => intro acc; simp [String.intercalate.go, ih]

theorem intercalate_snoc (sep : String) (parts : List String) (p : String)
    (h : parts ≠ []) :
    sep.intercalate (parts ++ [p]) = sep.intercalate parts ++ sep ++ p := by
  cases parts with
  | nil => exact absurd rfl h
  | cons a rest => simp [String.intercalate, intercalate_go_snoc]

theorem Assembled.step {acc : String} {parts : List String} (h : Assembled acc parts)
    (p : String) (hne : p.data ≠ []) (hp : NoEdgeSpace p) :
    Assembled (acc ++ " " ++ p) (parts ++ [p]) := by
  rcases h with ⟨hparts, hacc⟩ | ⟨hparts, hacc, hJ, hS, -⟩
  · subst hparts hacc
    refine Or.inr ⟨by simp, Or.inr ?_, ?_, ?_⟩
    · simp [String.intercalate, String.intercalate.go]
    · simpa [String.intercalate, String.intercalate.go] using hne
    · simpa [String.intercalate, String.intercalate.go] using hp
  · refine Or.inr ⟨by simp, ?_, ?_, ?_, ?_⟩
    · rw [intercalate_snoc _ _ _ hparts]
      rcases hacc with hacc | hacc
      · exact Or.inl (by rw [hacc])
      · exact Or.inr (by rw [hacc]; simp [String.append_assoc])
    · rw [intercalate_snoc _ _ _ hparts]
      simp [String.data_append, hne]
    · rw [intercalate_snoc _ _ _ hparts]
      intro c hc
      rw [String.data_append, String.data_append, List.append_assoc,
        List.head?_append_of_ne_nil _ hJ] at hc
      exact hS c hc
    · rw [intercalate_snoc _ _ _ hparts]
      intro c hc
      rw [String.data_append, List.getLast?_append_of_ne_nil _ hne] at hc
      exact hp.2 c hc

theorem Assembled.trim {acc : String} {parts : List String} (h : Assembled acc parts) :
    TrimSpace acc = " ".intercalate parts ∧ NoEdgeSpace (" ".intercalate parts) := by
  rcases h with ⟨hparts, hacc⟩ | ⟨-, hacc, -, hS, hE⟩
  · subst hparts hacc
    refine ⟨by decide, ?_, ?_⟩ <;> intro c hc <;> simp [String.intercalate] at hc
  · refine ⟨?_, hS, hE⟩
    rcases hacc with hacc | hacc
    · rw [hacc, TrimSpace_of_noEdgeSpace _ ⟨hS, hE⟩]
    · rw [hacc, TrimSpace_space_append, TrimSpace_of_noEdgeSpace _ ⟨hS, hE⟩]

theorem isSpace_digitChar (n : Nat) : isSpace (Nat.digitChar (n % 10)) = false := by
  have h : n % 10 < 10 := Nat.mod_lt _ (by decide)
  generalize n % 10 = k at h
  interval_cases k <;> decide

theorem toDigitsCore_noSpace (fuel : Nat) :
    ∀ (n : Nat) (acc : List Char), (∀ c ∈ acc, isSpace c = false) →
      ∀ c ∈ Nat.toDigitsCore 10 fuel n acc, isSpace c = false := by
  induction fuel with
  | zero => intro n acc hacc c hc; exact hacc c (by simpa [Nat.toDigitsCore] using hc)
  | succ fuel ih =>
    intro n acc hacc c hc
    have hacc' : ∀ c ∈ Nat.digitChar (n % 10) :: acc, isSpace c = false := by
      intro c hc
      rcases List.mem_cons.1 hc with h | h
      · rw [h]; exact isSpace_digitChar n
      · exact hacc c h
    simp only [Nat.toDigitsCore] at hc
    split at hc
    · exact hacc' c hc
    · exact ih _ _ hacc' c hc

theorem toDigitsCore_ne_nil (fuel : Nat) :
    ∀ (n : Nat) (acc : List Char), acc ≠ [] → Nat.toDigitsCore 10 fuel n acc ≠ [] := by
  induction fuel with
  | zero => intro n acc hacc; simpa [Nat.toDigitsCore] using hacc
  | succ fuel ih =>
    intro n acc _
    simp only [Nat.toDigitsCore]
    split
    · simp
    · exact ih _ _ (by simp)

theorem Itoa_pos (port : Int) (h : port > 0) :
    (Itoa port).data ≠ [] ∧ ∀ c ∈ (Itoa port).data, isSpace c = false := by
  have hneg : ¬ port < 0 := by omega
  have hd : (Itoa port).data = Nat.toDigits 10 port.toNat := by
    simp [Itoa, hneg, List.asString]
  rw [hd]
  constructor
  · simp only [Nat.toDigits, Nat.toDigitsCore]
    split
    · simp
    · exact toDigitsCore_ne_nil _ _ _ (by simp)
  · exact toDigitsCore_noSpace _ _ _ (by simp)

theorem keyValue_part (key value : String) (hkey : ∃ c rest, key.data = c :: rest ∧ isSpace c = false)
    (hne : value.data ≠ []) (hlast : ∀ c, value.data.getLast? = some c → isSpace c = false) :
    (key ++ value).data ≠ [] ∧ NoEdgeSpace (key ++ value) := by
  obtain ⟨k, rest, hk, hks⟩ := hkey
  refine ⟨by simp [String.data_append, hne], ?_, ?_⟩
  · intro c hc
    rw [String.data_append, hk] at hc
    simp at hc
    rw [← hc]; exact hks
  · intro c hc
    rw [String.data_append, List.getLast?_append_of_ne_nil _ hne] at hc
    exact hlast c hc

theorem data_ne_nil_of_ne_empty (s : String) (h : s ≠ "") : s.data ≠ [] := by
  intro hd
  exact h (String.ext hd)

theorem Assembled.first (cond : Prop) [Decidable cond] (key value : String)
    (hkey : ∃ c rest, key.data = c :: rest ∧ isSpace c = false)
    (hval : cond → value.data ≠ [] ∧ ∀ c, value.data.getLast? = some c → isSpace c = false) :
    Assembled (if cond then key ++ value else "") (if cond then [key ++ value] else []) := by
  by_cases hc : cond
  · obtain ⟨hne, hp⟩ := keyValue_part key value hkey (hval hc).1 (hval hc).2
    simp only [hc, if_true]
    exact Or.inr ⟨by simp, Or.inl (by simp [String.intercalate, String.intercalate.go]),
      by simpa [String.intercalate, String.intercalate.go] using hne,
      by simpa [String.intercalate, String.intercalate.go] using hp⟩
  · simp only [hc, if_false]
    exact Or.inl ⟨rfl, rfl⟩

theorem Assembled.append_setting {acc : String} {parts : List String}
    (h : Assembled acc parts) (cond : Prop) [Decidable cond] (spkey key value : String)
    (hsp : spkey = " " ++ key)
    (hkey : ∃ c rest, key.data = c :: rest ∧ isSpace c = false)
    (hval : cond → value.data ≠ [] ∧ ∀ c, value.data.getLast? = some c → isSpace c = false) :
    Assembled (if cond then acc ++ spkey ++ value else acc)
      (parts ++ if cond then [key ++ value] else []) := by
  by_cases hc : cond
  · obtain ⟨hne, hp⟩ := keyValue_part key value hkey (hval hc).1 (hval hc).2
    have hstep := h.step (key ++ value) hne hp
    have e : acc ++ spkey ++ value = acc ++ " " ++ (key ++ value) := by
      rw [hsp]; simp [String.append_assoc]
    simp only [hc, if_true]
    rw [e]
    exact hstep
  · simp only [hc, if_false, List.append_nil]
    exact h

theorem noEdgeSpace_of_check (s : String)
    (h : (s.data.head?.all (fun c => !isSpace c)
          && s.data.getLast?.all (fun c => !isSpace c)) = true) : NoEdgeSpace s := by
  rw [Bool.and_eq_true] at h
  constructor
  · intro c hc
    have := h.1
    rw [hc] at this
    simpa using this
  · intro c hc
    have := h.2
    rw [hc] at this
    simpa using this

/-- C10: for host, user and database name that neither begin nor end with white space, and
any port, the connection string handed to the parser is the parts `host=`, `port=`, `user=`
and `dbname=` (each present only when its value is given, the port only when positive, each
value verbatim), in that order, joined by single spaces; it has no white space at either end;
and for the all-empty tuple it is the empty string. -/
theorem connString_eq_joined_parts (host : String) (port : Int) (user dbname : String)
    (hhost : NoEdgeSpace host) (huser : NoEdgeSpace user) (hdbname : NoEdgeSpace dbname) :
    connString host port user dbname = " ".intercalate (connParts host port user dbname)
      ∧ NoEdgeSpace (connString host port user dbname)
      ∧ connString "" 0 "" "" = "" := by
  have h1 := Assembled.first (host ≠ "") "host=" host ⟨'h', _, rfl, by decide⟩
    (fun h => ⟨data_ne_nil_of_ne_empty _ h, hhost.2⟩)
  have h2 := h1.append_setting (port > 0) " port=" "port=" (Itoa port) (by decide)
    ⟨'p', _, rfl, by decide⟩
    (fun h => ⟨(Itoa_pos port h).1,
      fun c hc => (Itoa_pos port h).2 c (List.mem_of_getLast?_eq_some hc)⟩)
  have h3 := h2.append_setting (user ≠ "") " user=" "user=" user (by decide)
    ⟨'u', _, rfl, by decide⟩ (fun h => ⟨data_ne_nil_of_ne_empty _ h, huser.2⟩)
  have h4 := h3.append_setting (dbname ≠ "") " dbname=" "dbname=" dbname (by decide)
    ⟨'d', _, rfl, by decide⟩ (fun h => ⟨data_ne_nil_of_ne_empty _ h, hdbname.2⟩)
  have h := h4.trim
  have e : connString host port user dbname
      = " ".intercalate (connParts host port user dbname) := h.1
  exact ⟨e, by rw [e]; exact h.2, by decide⟩

/-- C10 at a concrete call, with all four settings given. -/
theorem connString_eq_joined_parts_witness :
    NoEdgeSpace "db.example.org" ∧ NoEdgeSpace "postgres"
      ∧ connParts "db.example.org" 5432 "postgres" "postgres"
        = ["host=db.example.org", "port=5432", "user=postgres", "dbname=postgres"]
      ∧ connString "db.example.org" 5432 "postgres" "postgres"
        = " ".intercalate (connParts "db.example.org" 5432 "postgres" "postgres") :=
  ⟨noEdgeSpace_of_check _ (by decide), noEdgeSpace_of_check _ (by decide), by decide,
    (connString_eq_joined_parts "db.example.org" 5432 "postgres" "postgres"
      (noEdgeSpace_of_check _ (by decide)) (noEdgeSpace_of_check _ (by decide))
      (noEdgeSpace_of_check _ (by decide))).1⟩

end Pgcenter
